import Mathlib

/-!
Shallow embedding of the `smbus-pec` crate.

The crate's `pec` function and `Pec` hasher are generated by the
`embedded_crc_macros` macros `crc8!(pec, 7, 0, ...)` and
`crc8_hasher!(Pec, 7, 0, ...)` (bitwise build) and
`crc8_lookup_table!` / `crc8_hasher_lookup_table!` (lookup-table build),
with the 256-entry table produced at build time by
`build_rs_lookup_table_file_generation!(fn write_file, pec, LOOKUP_TABLE, ...)`
in `build.rs`.  The macro bodies live in the external
`embedded_crc_macros` crate and are not part of this repository's sources,
so they are modelled here from the specification.  Bytes and the CRC
register are `Nat` values below 256; the 8-bit register wrap of the Rust
`u8` arithmetic is made explicit with `% 256`.
-/

/-- Modelled from the spec: the CRC polynomial constant passed to the
`crc8!` macro, `0x07` (x^8 + x^2 + x + 1 with the implicit x^8 dropped). -/
def POLYNOMIAL : Nat := 0x07

/-- Modelled from the spec: one shift/XOR round of the bitwise algorithm,
as generated by `crc8!`: if bit 7 of the register is set the register
becomes `(crc << 1) XOR polynomial`, otherwise `crc << 1`, within the
8-bit `u8` register (`% 256`). -/
def crc8Round (crc : Nat) : Nat :=
  if crc &&& 0x80 ≠ 0 then ((crc <<< 1) ^^^ POLYNOMIAL) % 256
  else (crc <<< 1) % 256

/-- Eight consecutive shift/XOR rounds (the inner `for _ in 0..8` loop of
the macro-generated body). -/
def crc8Rounds : Nat → Nat → Nat
  | 0, crc => crc
  | n + 1, crc => crc8Rounds n (crc8Round crc)

/-- Modelled from the spec: the per-byte update of the bitwise calculator:
XOR the incoming byte into the register, then run the 8 rounds. -/
def pecStep (crc b : Nat) : Nat :=
  crc8Rounds 8 (crc ^^^ b)

/-- Modelled from the spec: `pec`, the one-shot bitwise SMBus PEC
calculator generated by `crc8!(pec, 7, 0, ...)`: fold the per-byte update
over the message starting from register 0. -/
def pec (data : List Nat) : Nat :=
  data.foldl pecStep 0

/-- Reference bitwise CRC-8 algorithm transcribed from the specification
wording alone: starting from `crc = 0`, for each byte `b` in order `crc`
is XORed with `b`, then 8 rounds are applied in which a register with the
high bit (bit 7) set becomes `(crc << 1) XOR 0x07` and otherwise
`crc << 1`, all reduced into an 8-bit register.  Phrased independently of
`crc8Round` (via `Nat.testBit` and multiplication by 2) so that agreement
with `pec` is a genuine equivalence. -/
def specRound (crc : Nat) : Nat :=
  (if crc.testBit 7 then (2 * crc) ^^^ 0x07 else 2 * crc) % 256

/-- Eight applications of the specification round. -/
def specRounds : Nat → Nat → Nat
  | 0, crc => crc
  | n + 1, crc => specRounds n (specRound crc)

/-- Reference one-shot calculator built from the specification rounds. -/
def specPec (data : List Nat) : Nat :=
  data.foldl (fun crc b => specRounds 8 (crc ^^^ b)) 0

/-- Modelled from the spec: the 256-entry lookup table written by
`build.rs` (`build_rs_lookup_table_file_generation!`): entry `i` is the
bitwise algorithm applied to the single-byte message `[i]`. -/
def LOOKUP_TABLE : List Nat :=
  (List.range 256).map (fun i => pec [i])

/-- Modelled from the spec: the table-based `pec` generated by
`crc8_lookup_table!`: per byte, the register becomes
`table[crc XOR byte]`. -/
def pecLookup (data : List Nat) : Nat :=
  data.foldl (fun crc b => LOOKUP_TABLE.getD (crc ^^^ b) 0) 0

/-- Modelled from the spec: the `Pec` hasher state generated by
`crc8_hasher!`: a single `u8` running CRC register. -/
structure Pec where
  crc : Nat
deriving DecidableEq, Repr

/-- Modelled from the spec: `Pec::new`, constructing the accumulator with
register 0. -/
def Pec.new : Pec := ⟨0⟩

/-- Modelled from the spec: `Hasher::write` for `Pec`: feed each byte of
the chunk through the same per-byte update as the bitwise calculator. -/
def Pec.write (s : Pec) (data : List Nat) : Pec :=
  ⟨data.foldl pecStep s.crc⟩

/-- Modelled from the spec: `Hasher::finish` for `Pec`: returns the
current register value widened to `u64` (value-preserving, upper bits
zero).  Takes the state by shared reference and performs no mutation. -/
def Pec.finish (s : Pec) : Nat :=
  s.crc

/-- Effectful view of a `finish` call: `finish` takes `&self` in the
source, so a call yields the returned value together with the (unchanged)
state the caller retains afterwards. -/
def Pec.finishCall (s : Pec) : Nat × Pec :=
  (s.finish, s)

/-! Basic bounds: the register stays below 256. -/

theorem crc8Round_lt (crc : Nat) : crc8Round crc < 256 := by
  unfold crc8Round
  split <;> exact Nat.mod_lt _ (by norm_num)

theorem crc8Rounds_lt_of_lt : ∀ n crc, crc < 256 → crc8Rounds n crc < 256
  | 0, _, h => h
  | n + 1, crc, _ => crc8Rounds_lt_of_lt n (crc8Round crc) (crc8Round_lt crc)

theorem pecStep_lt (crc b : Nat) : pecStep crc b < 256 :=
  crc8Rounds_lt_of_lt 7 (crc8Round (crc ^^^ b)) (crc8Round_lt (crc ^^^ b))

theorem foldl_pecStep_lt : ∀ (data : List Nat) (crc : Nat), crc < 256 →
    data.foldl pecStep crc < 256
  | [], _, h => h
  | b :: rest, crc, _ => foldl_pecStep_lt rest (pecStep crc b) (pecStep_lt crc b)

theorem pec_lt (data : List Nat) : pec data < 256 :=
  foldl_pecStep_lt data 0 (by norm_num)

/-! Equivalence of the embedded round with the spec-worded round. -/

theorem specRound_lt (crc : Nat) : specRound crc < 256 :=
  Nat.mod_lt _ (by norm_num)

set_option maxRecDepth 4096 in
theorem crc8Round_eq_specRound (crc : Nat) (h : crc < 256) :
    crc8Round crc = specRound crc := by
  revert h
  revert crc
  decide

theorem crc8Rounds_eq_specRounds : ∀ n crc, crc < 256 →
    crc8Rounds n crc = specRounds n crc
  | 0, _, _ => rfl
  | n + 1, crc, h => by
    show crc8Rounds n (crc8Round crc) = specRounds n (specRound crc)
    rw [crc8Round_eq_specRound crc h]
    exact crc8Rounds_eq_specRounds n (specRound crc) (specRound_lt crc)

theorem xor_lt_256 {a b : Nat} (ha : a < 256) (hb : b < 256) : a ^^^ b < 256 :=
  Nat.bitwise_lt_two_pow (n := 8) ha hb

theorem foldl_pecStep_eq_spec : ∀ (data : List Nat) (crc : Nat), crc < 256 →
    (∀ b ∈ data, b < 256) →
    data.foldl pecStep crc = data.foldl (fun c b => specRounds 8 (c ^^^ b)) crc
  | [], _, _, _ => rfl
  | b :: rest, crc, h, hb => by
    have hbmem : b < 256 := hb b (List.mem_cons_self b rest)
    show (rest.foldl pecStep (pecStep crc b)) = _
    rw [foldl_pecStep_eq_spec rest (pecStep crc b) (pecStep_lt crc b)
      (fun x hx => hb x (List.mem_cons_of_mem b hx))]
    show rest.foldl _ (crc8Rounds 8 (crc ^^^ b)) = rest.foldl _ (specRounds 8 (crc ^^^ b))
    rw [crc8Rounds_eq_specRounds 8 (crc ^^^ b) (xor_lt_256 h hbmem)]

/-- C1: for every byte sequence (each element below 256), `pec` returns
exactly the result of the reference bitwise CRC-8 algorithm transcribed
from the specification: seed 0, XOR each byte into the register, then 8
rounds of shift-left with conditional XOR of 0x07 when bit 7 was set,
within an 8-bit register. -/
theorem pec_eq_reference (data : List Nat) (h : ∀ b ∈ data, b < 256) :
    pec data = specPec data :=
  foldl_pecStep_eq_spec data 0 (by norm_num) h

/-- Witness for C1 at the concrete message `[0xB4, 0x06, 0xAB, 0xCD]`. -/
theorem pec_eq_reference_witness :
    (∀ b ∈ [0xB4, 0x06, 0xAB, 0xCD], b < 256) ∧
      pec [0xB4, 0x06, 0xAB, 0xCD] = specPec [0xB4, 0x06, 0xAB, 0xCD] :=
  ⟨by decide, pec_eq_reference [0xB4, 0x06, 0xAB, 0xCD] (by decide)⟩

/-! Lookup-table build: table entries and per-byte equivalence. -/

theorem lookupTable_getD (i : Nat) (h : i < 256) :
    LOOKUP_TABLE.getD i 0 = pec [i] := by
  simp [LOOKUP_TABLE, List.getD_eq_getElem?_getD, List.getElem?_map,
    List.getElem?_range, h]

theorem pec_singleton (i : Nat) : pec [i] = crc8Rounds 8 i := by
  show crc8Rounds 8 (0 ^^^ i) = crc8Rounds 8 i
  rw [Nat.zero_xor]

theorem foldl_lookup_eq_pecStep : ∀ (data : List Nat) (crc : Nat), crc < 256 →
    (∀ b ∈ data, b < 256) →
    data.foldl (fun c b => LOOKUP_TABLE.getD (c ^^^ b) 0) crc =
      data.foldl pecStep crc
  | [], _, _, _ => rfl
  | b :: rest, crc, h, hb => by
    have hbmem : b < 256 := hb b (List.mem_cons_self b rest)
    have hx : crc ^^^ b < 256 := xor_lt_256 h hbmem
    show rest.foldl _ (LOOKUP_TABLE.getD (crc ^^^ b) 0) = rest.foldl _ (pecStep crc b)
    rw [lookupTable_getD (crc ^^^ b) hx, pec_singleton]
    exact foldl_lookup_eq_pecStep rest (crc8Rounds 8 (crc ^^^ b))
      (crc8Rounds_lt_of_lt 7 _ (crc8Round_lt _))
      (fun x hx2 => hb x (List.mem_cons_of_mem b hx2))

/-- C2: for every byte sequence (each element below 256), the table-based
calculator (register becomes `table[crc XOR byte]` per byte) returns the
same checksum as the bitwise calculator `pec`; the two build
configurations are behaviourally identical. -/
theorem pecLookup_eq_pec (data : List Nat) (h : ∀ b ∈ data, b < 256) :
    pecLookup data = pec data :=
  foldl_lookup_eq_pecStep data 0 (by norm_num) h

/-- Witness for C2 at the concrete message `[0xB4, 0x06, 0xB5, 38, 58]`. -/
theorem pecLookup_eq_pec_witness :
    (∀ b ∈ [0xB4, 0x06, 0xB5, 38, 58], b < 256) ∧
      pecLookup [0xB4, 0x06, 0xB5, 38, 58] = pec [0xB4, 0x06, 0xB5, 38, 58] :=
  ⟨by decide, pecLookup_eq_pec [0xB4, 0x06, 0xB5, 38, 58] (by decide)⟩

set_option maxRecDepth 8192 in
/-- C3: the two concrete scenarios from the crate's example program:
`pec [0xB4, 0x06, 0xAB, 0xCD] = 95` and
`pec [0xB4, 0x06, 0xB5, 38, 58] = 102`. -/
theorem pec_concrete_examples :
    pec [0xB4, 0x06, 0xAB, 0xCD] = 95 ∧ pec [0xB4, 0x06, 0xB5, 38, 58] = 102 := by
  constructor <;> rfl

/-! Incremental accumulator. -/

theorem foldl_write_crc : ∀ (chunks : List (List Nat)) (s : Pec),
    (chunks.foldl Pec.write s).crc =
      chunks.foldl (fun c l => l.foldl pecStep c) s.crc
  | [], _ => rfl
  | c :: rest, s => foldl_write_crc rest (s.write c)

/-- C4: for every way of splitting a message into consecutive chunks,
building a fresh accumulator with `Pec.new`, absorbing the chunks with
successive `write` calls, and reading the result with `finish` yields the
same checksum as the one-shot `pec` applied to the concatenation. -/
theorem chunked_write_eq_pec (chunks : List (List Nat)) :
    (chunks.foldl Pec.write Pec.new).finish = pec chunks.flatten := by
  show (chunks.foldl Pec.write Pec.new).crc = chunks.flatten.foldl pecStep 0
  rw [foldl_write_crc, List.foldl_flatten]
  rfl

/-- C5: every entry of the generated 256-entry lookup table equals the
bitwise algorithm's result on the corresponding single-byte message. -/
theorem lookupTable_entry_eq_pec_single (i : Nat) (h : i < 256) :
    LOOKUP_TABLE.getD i 0 = pec [i] :=
  lookupTable_getD i h

/-- Witness for C5 at index 0xAB. -/
theorem lookupTable_entry_eq_pec_single_witness :
    0xAB < 256 ∧ LOOKUP_TABLE.getD 0xAB 0 = pec [0xAB] :=
  ⟨by decide, lookupTable_entry_eq_pec_single 0xAB (by decide)⟩

/-- C6: the empty message hashes to the seed value 0 in both build
configurations (bitwise and lookup-table). -/
theorem pec_nil : pec [] = 0 ∧ pecLookup [] = 0 :=
  ⟨rfl, rfl⟩

/-- C7: `finish` is a pure read: a call leaves the accumulator state
unchanged, and a second call with no intervening `write` returns the same
value as the first. -/
theorem finish_pure_read (s : Pec) :
    (s.finishCall).2 = s ∧
      ((s.finishCall).2.finishCall).1 = (s.finishCall).1 :=
  ⟨rfl, rfl⟩

theorem foldl_step_chunks_lt : ∀ (chunks : List (List Nat)) (c : Nat), c < 256 →
    chunks.foldl (fun c l => l.foldl pecStep c) c < 256
  | [], _, h => h
  | l :: rest, c, h => foldl_step_chunks_lt rest (l.foldl pecStep c) (foldl_pecStep_lt l c h)

theorem foldl_write_lt (chunks : List (List Nat)) :
    (chunks.foldl Pec.write Pec.new).crc < 256 := by
  rw [foldl_write_crc]
  exact foldl_step_chunks_lt chunks 0 (by norm_num)

/-- C8: for every accumulator built through the public interface
(`Pec.new` followed by any sequence of `write` calls), the widened
`finish` result equals the 8-bit register value zero-extended, and all
bits above the low 8 are zero (the value is at most 255). -/
theorem finish_upper_bits_zero (chunks : List (List Nat)) :
    (chunks.foldl Pec.write Pec.new).finish =
        (chunks.foldl Pec.write Pec.new).crc ∧
      (chunks.foldl Pec.write Pec.new).finish ≤ 255 :=
  ⟨rfl, Nat.lt_succ_iff.mp (foldl_write_lt chunks)⟩

/-- C9: the single zero byte hashes to 0: XORing 0 into the zero register
leaves it zero, and all 8 shift/XOR rounds keep it zero. -/
theorem pec_single_zero : pec [0x00] = 0 :=
  rfl

/-- C10: self-verification: appending the computed checksum byte to any
message yields residue 0, i.e. `pec (s ++ [pec s]) = 0`. -/
theorem pec_append_checksum (s : List Nat) : pec (s ++ [pec s]) = 0 := by
  show (s ++ [pec s]).foldl pecStep 0 = 0
  rw [List.foldl_append]
  show crc8Rounds 8 (s.foldl pecStep 0 ^^^ s.foldl pecStep 0) = 0
  rw [Nat.xor_self]
  rfl
